import Mathlib

/-!
Shallow embedding of the bare-metal-controller core:
the per-machine reconciliation engine (`internal/controller/server_controller.go`)
and the fleet protocol adapter (`external/baremetalprovider.go`),
over the record data model of `api/v1/server_types.go`.

External collaborators (reachability probe, power capabilities, clock) are
modelled as an `Env` of response functions; the record store as a `List Server`
for the adapter and as a single stored `Server` plus an explicit write trace for
the engine.  A `Status().Update` call persists only the status subresource; a
plain `Update` call persists the spec — both are recorded as `StoreWrite`
events so frame properties are visible in the trace.
-/

namespace BareMetal

/-- `spec.powerState`: Go string constants "on"/"off"; `unset` is the empty
string before the reconciler defaults it to off. -/
inductive PowerState where
  | on
  | off
  | unset
deriving DecidableEq, Repr

/-- `status.status`: Go string constants; `unset` is the empty string of a
freshly created record. -/
inductive CurrentStatus where
  | pending
  | active
  | offline
  | draining
  | failed
  | unset
deriving DecidableEq, Repr

/-- `spec.type`: which control method applies (`wol` / `ipmi`); `unknown`
covers any other string. -/
inductive ControlType where
  | wol
  | ipmi
  | unknown
deriving DecidableEq, Repr

/-- `WOLSpecs` of `api/v1/server_types.go`. -/
structure WOLSpecs where
  address : String
  macAddress : String
  port : Nat
  user : String
deriving DecidableEq, Repr

/-- `IPMISpecs` of `api/v1/server_types.go`. -/
structure IPMISpecs where
  address : String
  username : String
  password : String
deriving DecidableEq, Repr

/-- `ControlSpecs`: optional per-method parameter blocks. -/
structure ControlSpecs where
  ipmi : Option IPMISpecs
  wol : Option WOLSpecs
deriving DecidableEq, Repr

/-- `ServerSpec`: the desired state. -/
structure ServerSpec where
  powerState : PowerState
  type : ControlType
  control : ControlSpecs
deriving DecidableEq, Repr

/-- `ServerStatus`: the observed state written by the engine.  `failingSince`
is an optional timestamp (modelled as `Nat`). -/
structure ServerStatus where
  status : CurrentStatus
  message : String
  failingSince : Option Nat
  failureCount : Nat
deriving DecidableEq, Repr

/-- One record per physical machine, identified by `name`. -/
structure Server where
  name : String
  spec : ServerSpec
  status : ServerStatus
deriving DecidableEq, Repr

/-- A power-capability invocation made by the engine during one reconcile. -/
inductive PowerCall where
  | wake (mac : String) (port : Nat)
  | shutdown (host : String) (user : String)
  | ipmiOn (address : String) (username : String) (password : String)
  | ipmiOff (address : String) (username : String) (password : String)
deriving DecidableEq, Repr

/-- A persisted store write.  `statusUpdate` is `r.Status().Update` (persists
only the status subresource); `specUpdate` is a plain `Update` (persists the
spec).  The engine source only ever issues the former, the adapter only the
latter. -/
inductive StoreWrite where
  | statusUpdate (st : ServerStatus)
  | specUpdate (sp : ServerSpec)
deriving DecidableEq, Repr

/-- External collaborators: the reachability probe, the power backends
(success/failure response per call), and the clock (`metav1.Now()`). -/
structure Env where
  isReachable : String → Bool
  wakeOk : String → Nat → Bool
  shutdownOk : String → String → Bool
  ipmiOnOk : String → String → String → Bool
  ipmiOffOk : String → String → String → Bool
  now : Nat

/-- Result of one `Reconcile` invocation: final in-memory record, ordered
trace of store writes and power-capability calls, requeue delay (seconds) and
returned error. -/
structure ReconcileOutput where
  server : Server
  writes : List StoreWrite
  powerCalls : List PowerCall
  requeueAfter : Option Nat
  error : Option String
deriving DecidableEq, Repr

/-- `getServerAddress` of `server_controller.go`. -/
def getServerAddress (s : Server) : String :=
  match s.spec.type with
  | ControlType.wol =>
    match s.spec.control.wol with
    | some w => w.address
    | none => ""
  | ControlType.ipmi =>
    match s.spec.control.ipmi with
    | some i => i.address
    | none => ""
  | ControlType.unknown => ""

/-- `powerOn` of `server_controller.go`: validation then capability dispatch.
Returns the capability call made (if validation passed) and the error (from
validation or from the capability). -/
def powerOn (env : Env) (s : Server) : Option PowerCall × Option String :=
  match s.spec.type with
  | ControlType.wol =>
    match s.spec.control.wol with
    | none => (none, some "WOL config is required")
    | some w =>
      if w.macAddress = "" then (none, some "WOL MAC address is required")
      else (some (PowerCall.wake w.macAddress w.port),
            if env.wakeOk w.macAddress w.port then none else some "wake failed")
  | ControlType.ipmi =>
    match s.spec.control.ipmi with
    | none => (none, some "IPMI config is required")
    | some i =>
      if i.address = "" then (none, some "IPMI address is required")
      else if i.username = "" ∨ i.password = "" then
        (none, some "IPMI username and password are required")
      else (some (PowerCall.ipmiOn i.address i.username i.password),
            if env.ipmiOnOk i.address i.username i.password then none
            else some "ipmi power on failed")
  | ControlType.unknown => (none, some "unknown control type")

/-- `powerOff` of `server_controller.go`. -/
def powerOff (env : Env) (s : Server) : Option PowerCall × Option String :=
  match s.spec.type with
  | ControlType.wol =>
    match s.spec.control.wol with
    | none => (none, some "WOL config is required")
    | some w =>
      if w.address = "" then (none, some "WOL address is required")
      else (some (PowerCall.shutdown w.address w.user),
            if env.shutdownOk w.address w.user then none else some "shutdown failed")
  | ControlType.ipmi =>
    match s.spec.control.ipmi with
    | none => (none, some "IPMI config is required")
    | some i =>
      if i.address = "" then (none, some "IPMI address is required")
      else if i.username = "" ∨ i.password = "" then
        (none, some "IPMI username and password are required")
      else (some (PowerCall.ipmiOff i.address i.username i.password),
            if env.ipmiOffOk i.address i.username i.password then none
            else some "ipmi power off failed")
  | ControlType.unknown => (none, some "unknown control type")

/-- `clearFailure` of `server_controller.go`. -/
def clearFailure (s : Server) (newStatus : CurrentStatus) : Server :=
  { s with status := { status := newStatus, message := "", failingSince := none,
                       failureCount := 0 } }

/-- `recordFailure` of `server_controller.go`: stamp `failingSince` only when
unset, then increment `failureCount`. -/
def recordFailure (env : Env) (s : Server) : Server :=
  { s with status :=
    { s.status with
      failingSince :=
        match s.status.failingSince with
        | none => some env.now
        | some t => some t
      failureCount := s.status.failureCount + 1 } }

/-- Defaulting step at the top of `Reconcile`: empty `PowerState` becomes off
(in memory only; never persisted by a status update). -/
def defaultPower (s : Server) : Server :=
  if s.spec.powerState = PowerState.unset then
    { s with spec := { s.spec with powerState := PowerState.off } }
  else s

/-- Replace only the `status.status` field. -/
def withPhase (s : Server) (st : CurrentStatus) : Server :=
  { s with status := { s.status with status := st } }

/-- An output that persists the record's current status via
`r.Status().Update` and makes no power call. -/
def writeOut (s : Server) (rq : Option Nat) (e : Option String) : ReconcileOutput :=
  ⟨s, [StoreWrite.statusUpdate s.status], [], rq, e⟩

/-- Shared tail of the `Reconcile` power-action dispatch
(`server_controller.go` lines 233-243): on error set `failed` and persist with
the error message; on success set the transitional phase, clear the message,
persist, requeue after 60s. -/
def finishPower (s : Server) (w : List StoreWrite)
    (r : Option PowerCall × Option String) (newStatus : CurrentStatus) :
    ReconcileOutput :=
  match r.2 with
  | some e =>
    let s2 : Server :=
      { s with status := { s.status with
                           status := CurrentStatus.failed
                           message := "Power action failed: " ++ e } }
    ⟨s2, w ++ [StoreWrite.statusUpdate s2.status], r.1.toList, none, some e⟩
  | none =>
    let s2 : Server :=
      { s with status := { s.status with
                           status := newStatus
                           message := "" } }
    ⟨s2, w ++ [StoreWrite.statusUpdate s2.status], r.1.toList, some 60, none⟩

/-- Convergence check and power-action dispatch of `Reconcile`
(`server_controller.go` lines 207-243), entered only from the
active/offline/unset phases; `w` is the write trace accumulated so far. -/
def powerStage (env : Env) (s : Server) (w : List StoreWrite) : ReconcileOutput :=
  let current :=
    if s.status.status = CurrentStatus.active then PowerState.on else PowerState.off
  if s.spec.powerState = current then ⟨s, w, [], none, none⟩
  else
    match s.spec.powerState with
    | PowerState.on => finishPower s w (powerOn env s) CurrentStatus.pending
    | PowerState.off => finishPower s w (powerOff env s) CurrentStatus.draining
    | PowerState.unset => ⟨s, w, [], none, none⟩

/-- `Reconcile` of `server_controller.go` on a record that exists in the store
(the absent-record case returns success with no requeue and no effect and is
not modelled).  The probe result is `env.isReachable` at the record's resolved
address. -/
def Reconcile (env : Env) (s0 : Server) : ReconcileOutput :=
  let s := defaultPower s0
  if s.status.status = CurrentStatus.failed then
    ⟨s, [], [], none, none⟩
  else if 3 ≤ s.status.failureCount then
    writeOut (withPhase s CurrentStatus.failed) none none
  else if getServerAddress s = "" then
    writeOut
      { s with status := { s.status with
                           status := CurrentStatus.failed
                           message := "No address configured for server" } }
      none (some ("no address configured for server " ++ s.name))
  else
    let reachable := env.isReachable (getServerAddress s)
    match s.status.status with
    | CurrentStatus.pending =>
      if reachable then writeOut (clearFailure s CurrentStatus.active) none none
      else writeOut (recordFailure env s) (some 60) none
    | CurrentStatus.draining =>
      if reachable then writeOut (recordFailure env s) (some 60) none
      else writeOut (clearFailure s CurrentStatus.offline) none none
    | CurrentStatus.active =>
      if reachable then powerStage env s []
      else
        powerStage env (withPhase s CurrentStatus.offline)
          [StoreWrite.statusUpdate (withPhase s CurrentStatus.offline).status]
    | CurrentStatus.offline =>
      powerStage env
        (withPhase s (if reachable then CurrentStatus.active else CurrentStatus.offline))
        [StoreWrite.statusUpdate
          (withPhase s (if reachable then CurrentStatus.active else CurrentStatus.offline)).status]
    | CurrentStatus.unset =>
      powerStage env
        (withPhase s (if reachable then CurrentStatus.active else CurrentStatus.offline))
        [StoreWrite.statusUpdate
          (withPhase s (if reachable then CurrentStatus.active else CurrentStatus.offline)).status]
    | CurrentStatus.failed =>
      -- dead branch: the Go switch has no case for failed, which was already
      -- returned above; kept so the match mirrors the switch exhaustively
      powerStage env s []

/-- Effect of one invocation on the stored record: a `statusUpdate` persists
only the status subresource, a `specUpdate` only the spec. -/
def applyWrites (stored : Server) (ws : List StoreWrite) : Server :=
  ws.foldl
    (fun r w =>
      match w with
      | StoreWrite.statusUpdate st => { r with status := st }
      | StoreWrite.specUpdate sp => { r with spec := sp })
    stored

/-- The stored record after one reconcile invocation. -/
def reconcileStep (env : Env) (stored : Server) : Server :=
  applyWrites stored (Reconcile env stored).writes

/-- The stored record after `n` consecutive reconcile invocations. -/
def reconcileIter (env : Env) : Nat → Server → Server
  | 0, s => s
  | n + 1, s => reconcileStep env (reconcileIter env n s)

/-! ## Fleet protocol adapter (`external/baremetalprovider.go`)

The adapter's store is the listed snapshot `List Server`; each RPC returns the
store after its sequence of `Update` calls together with its result. -/

/-- `defaultNodeGroupID` of `baremetalprovider.go`. -/
def defaultNodeGroupID : String := "bare-metal-pool"

/-- `Client.Get` by name over the store snapshot. -/
def findByName : List Server → String → Option Server
  | [], _ => none
  | s :: rest, n => if s.name = n then some s else findByName rest n

/-- `Client.Update` persisting only the spec's power state of the record named
`n` (the adapter mutates nothing else before updating). -/
def setPowerState (store : List Server) (n : String) (ps : PowerState) :
    List Server :=
  store.map fun r =>
    if r.name = n then { r with spec := { r.spec with powerState := ps } } else r

/-- The provisioning loop shared by `NodeGroupIncreaseSize`
(src powerState off, dst on) and `NodeGroupDecreaseTargetSize` (src on, dst
off): walk the snapshot in order, flipping records whose power state is `src`
to `dst` until `budget` are flipped; return the updated store and the number
flipped. -/
def flipFirst (src dst : PowerState) (budget : Nat) :
    List Server → List Server × Nat
  | [] => ([], 0)
  | s :: rest =>
    if budget = 0 then (s :: rest, 0)
    else if s.spec.powerState = src then
      let r := flipFirst src dst (budget - 1) rest
      ({ s with spec := { s.spec with powerState := dst } } :: r.1, r.2 + 1)
    else
      let r := flipFirst src dst budget rest
      (s :: r.1, r.2)

/-- `NodeGroupIncreaseSize` of `baremetalprovider.go`: flips up to `delta`
off records on; errors (without rollback) when fewer than `delta` were
available. -/
def NodeGroupIncreaseSize (id : String) (delta : Int) (store : List Server) :
    List Server × Except String Unit :=
  if id ≠ defaultNodeGroupID then
    (store, Except.error ("unknown node group: " ++ id))
  else if delta ≤ 0 then (store, Except.ok ())
  else
    let r := flipFirst PowerState.off PowerState.on delta.toNat store
    if r.2 < delta.toNat then
      (r.1, Except.error "could not provision enough servers")
    else (r.1, Except.ok ())

/-- `NodeGroupDecreaseTargetSize` of `baremetalprovider.go`: flips up to
`delta` on records off; succeeds regardless of how many were available. -/
def NodeGroupDecreaseTargetSize (id : String) (delta : Int)
    (store : List Server) : List Server × Except String Unit :=
  if id ≠ defaultNodeGroupID then
    (store, Except.error ("unknown node group: " ++ id))
  else if delta ≤ 0 then (store, Except.ok ())
  else ((flipFirst PowerState.on PowerState.off delta.toNat store).1, Except.ok ())

/-- Per-name loop of `NodeGroupDeleteNodes`: `Get` each named record from the
current store, set its power state off and `Update`; stop with an error at the
first missing name. -/
def deleteLoop : List Server → List String → List Server × Except String Unit
  | store, [] => (store, Except.ok ())
  | store, n :: rest =>
    match findByName store n with
    | none => (store, Except.error ("failed to get server " ++ n))
    | some _ => deleteLoop (setPowerState store n PowerState.off) rest

/-- `NodeGroupDeleteNodes` of `baremetalprovider.go`. -/
def NodeGroupDeleteNodes (id : String) (names : List String)
    (store : List Server) : List Server × Except String Unit :=
  if id ≠ defaultNodeGroupID then
    (store, Except.error ("unknown node group: " ++ id))
  else deleteLoop store names

/-- Count of records in a given power state (used by the target-size query and
by the shortfall statements). -/
def countPS (ps : PowerState) : List Server → Nat
  | [] => 0
  | s :: rest => (if s.spec.powerState = ps then 1 else 0) + countPS ps rest

/-- A record with its power state erased (forced to off): two stores agree
under `stripPower` exactly when they agree on everything except
`spec.powerState` — names, statuses, control data all equal. -/
def stripPower (s : Server) : Server :=
  { s with spec := { s.spec with powerState := PowerState.off } }

/-- Recognizer for status-subresource writes. -/
def isStatusWrite : StoreWrite → Bool
  | StoreWrite.statusUpdate _ => true
  | StoreWrite.specUpdate _ => false

/-- One record flipped by the scale loops when it is in state `src`. -/
def flipTo (src dst : PowerState) (s : Server) : Server :=
  if s.spec.powerState = src then
    { s with spec := { s.spec with powerState := dst } }
  else s

/-- The longest leading run of `names` all of which name a record of the
store; `NodeGroupDeleteNodes` processes exactly these before stopping. -/
def presentFront (store : List Server) : List String → List String
  | [] => []
  | n :: rest =>
    match findByName store n with
    | some _ => n :: presentFront store rest
    | none => []

/-- Every name in the list names a record of the store. -/
def allPresent (store : List Server) : List String → Bool
  | [] => true
  | n :: rest => (findByName store n).isSome && allPresent store rest

/-! ## Concrete fixtures used by witnesses and counterexamples -/

/-- A WOL control block with address, MAC, default port and user. -/
def wolControl : ControlSpecs :=
  ⟨none, some ⟨"10.0.0.1", "aa:bb:cc:dd:ee:ff", 9, "admin"⟩⟩

/-- A record with the given name, desired power state and phase. -/
def mkServer (n : String) (ps : PowerState) (cs : CurrentStatus) : Server :=
  ⟨n, ⟨ps, ControlType.wol, wolControl⟩, ⟨cs, "", none, 0⟩⟩

/-- A three-record store: two off, one on. -/
def sampleStore : List Server :=
  [mkServer "alpha" PowerState.off CurrentStatus.offline,
   mkServer "beta" PowerState.on CurrentStatus.active,
   mkServer "gamma" PowerState.off CurrentStatus.offline]

/-- Environment whose probe never reaches any address. -/
def probeDownEnv : Env :=
  ⟨fun _ => false, fun _ _ => true, fun _ _ => true,
   fun _ _ _ => true, fun _ _ _ => true, 42⟩

/-- Environment whose probe reaches every address. -/
def probeUpEnv : Env :=
  ⟨fun _ => true, fun _ _ => true, fun _ _ => true,
   fun _ _ _ => true, fun _ _ _ => true, 42⟩

/-- A record already in the terminal failed phase. -/
def failedServer : Server :=
  ⟨"m1", ⟨PowerState.on, ControlType.wol, wolControl⟩,
   ⟨CurrentStatus.failed, "Power action failed: wake failed", some 7, 3⟩⟩

/-- A fresh pending record (no failure streak yet) desiring power on. -/
def pendingServer : Server := mkServer "p" PowerState.on CurrentStatus.pending

/-- A converged offline record: desired off, phase offline. -/
def convOffServer : Server := mkServer "c-off" PowerState.off CurrentStatus.offline

/-- A converged active record: desired on, phase active. -/
def convActiveServer : Server := mkServer "c-act" PowerState.on CurrentStatus.active

/-- A record whose WOL block has no address: the engine cannot resolve a
probe target. -/
def noAddrServer : Server :=
  ⟨"n1", ⟨PowerState.on, ControlType.wol,
          ⟨none, some ⟨"", "aa:bb:cc:dd:ee:ff", 9, "admin"⟩⟩⟩,
   ⟨CurrentStatus.pending, "", none, 0⟩⟩

/-- A WOL record with an address but no MAC, desiring power on from
offline. -/
def noMacServer : Server :=
  ⟨"n2", ⟨PowerState.on, ControlType.wol,
          ⟨none, some ⟨"10.0.0.9", "", 9, "admin"⟩⟩⟩,
   ⟨CurrentStatus.offline, "", none, 0⟩⟩

/-- Per-record effect of a scale loop: a record is either returned unchanged
or was in state `src` and is returned with its power state flipped to
`dst`. -/
def flipFrame (src dst : PowerState) (a b : Server) : Prop :=
  b = a ∨ (a.spec.powerState = src ∧
    b = { a with spec := { a.spec with powerState := dst } })

/-! ## Basic lemmas about the engine embedding -/

theorem defaultPower_status (s : Server) : (defaultPower s).status = s.status := by
  unfold defaultPower; split <;> rfl

theorem defaultPower_eq_of_ne (s : Server)
    (h : s.spec.powerState ≠ PowerState.unset) : defaultPower s = s := by
  unfold defaultPower
  simp [h]

theorem getServerAddress_defaultPower (s : Server) :
    getServerAddress (defaultPower s) = getServerAddress s := by
  unfold defaultPower; split <;> rfl

theorem withPhase_status (s : Server) (st : CurrentStatus) :
    (withPhase s st).status = { s.status with status := st } := rfl

theorem withPhase_spec (s : Server) (st : CurrentStatus) :
    (withPhase s st).spec = s.spec := rfl

theorem applyWrites_nil (s : Server) : applyWrites s [] = s := rfl

theorem applyWrites_status_cons (s : Server) (st : ServerStatus)
    (ws : List StoreWrite) :
    applyWrites s (StoreWrite.statusUpdate st :: ws) =
      applyWrites { s with status := st } ws := rfl

theorem step_failed (env : Env) (s : Server)
    (h : s.status.status = CurrentStatus.failed) : reconcileStep env s = s := by
  unfold reconcileStep Reconcile
  simp [defaultPower_status, h, applyWrites]

theorem step_threshold (env : Env) (s : Server)
    (h1 : s.status.status ≠ CurrentStatus.failed)
    (h2 : 3 ≤ s.status.failureCount) :
    reconcileStep env s = withPhase s CurrentStatus.failed := by
  unfold reconcileStep Reconcile
  simp [defaultPower_status, h1, h2, writeOut, applyWrites, withPhase]

theorem step_pending_reachable (env : Env) (s : Server)
    (h1 : s.status.status = CurrentStatus.pending)
    (h2 : s.status.failureCount < 3)
    (h3 : getServerAddress s ≠ "")
    (h4 : env.isReachable (getServerAddress s) = true) :
    reconcileStep env s = clearFailure s CurrentStatus.active := by
  have h2' : ¬ 3 ≤ s.status.failureCount := by omega
  unfold reconcileStep Reconcile
  simp [defaultPower_status, getServerAddress_defaultPower, h1, h2', h3, h4,
        writeOut, applyWrites, clearFailure]

theorem step_pending_unreachable (env : Env) (s : Server)
    (h1 : s.status.status = CurrentStatus.pending)
    (h2 : s.status.failureCount < 3)
    (h3 : getServerAddress s ≠ "")
    (h4 : env.isReachable (getServerAddress s) = false) :
    reconcileStep env s = recordFailure env s := by
  have h2' : ¬ 3 ≤ s.status.failureCount := by omega
  unfold reconcileStep Reconcile
  simp [defaultPower_status, getServerAddress_defaultPower, h1, h2', h3, h4,
        writeOut, applyWrites, recordFailure]

theorem step_draining_unreachable (env : Env) (s : Server)
    (h1 : s.status.status = CurrentStatus.draining)
    (h2 : s.status.failureCount < 3)
    (h3 : getServerAddress s ≠ "")
    (h4 : env.isReachable (getServerAddress s) = false) :
    reconcileStep env s = clearFailure s CurrentStatus.offline := by
  have h2' : ¬ 3 ≤ s.status.failureCount := by omega
  unfold reconcileStep Reconcile
  simp [defaultPower_status, getServerAddress_defaultPower, h1, h2', h3, h4,
        writeOut, applyWrites, clearFailure]

theorem step_draining_reachable (env : Env) (s : Server)
    (h1 : s.status.status = CurrentStatus.draining)
    (h2 : s.status.failureCount < 3)
    (h3 : getServerAddress s ≠ "")
    (h4 : env.isReachable (getServerAddress s) = true) :
    reconcileStep env s = recordFailure env s := by
  have h2' : ¬ 3 ≤ s.status.failureCount := by omega
  unfold reconcileStep Reconcile
  simp [defaultPower_status, getServerAddress_defaultPower, h1, h2', h3, h4,
        writeOut, applyWrites, recordFailure]

theorem applyWrites_append (s : Server) (a b : List StoreWrite) :
    applyWrites s (a ++ b) = applyWrites (applyWrites s a) b := by
  unfold applyWrites
  simp [List.foldl_append]

theorem powerStage_fcfs (env : Env) (s0 sx : Server) (w : List StoreWrite)
    (h1 : sx.status.failureCount = s0.status.failureCount)
    (h2 : sx.status.failingSince = s0.status.failingSince)
    (h3 : (applyWrites s0 w).status.failureCount = s0.status.failureCount)
    (h4 : (applyWrites s0 w).status.failingSince = s0.status.failingSince) :
    (applyWrites s0 (powerStage env sx w).writes).status.failureCount =
      s0.status.failureCount ∧
    (applyWrites s0 (powerStage env sx w).writes).status.failingSince =
      s0.status.failingSince := by
  unfold powerStage finishPower
  repeat' split
  all_goals first
    | exact ⟨h3, h4⟩
    | simp_all [applyWrites_append, applyWrites]

/-- Every reconcile invocation either leaves `failureCount`/`failingSince`
untouched in the store, resets them through a pending→active or
draining→offline transition, or increments the streak — stamping
`failingSince` only when it was null and keeping an existing stamp
otherwise. -/
theorem step_fcfs_cases (env : Env) (s : Server) :
    ((reconcileStep env s).status.failureCount = s.status.failureCount ∧
     (reconcileStep env s).status.failingSince = s.status.failingSince) ∨
    (s.status.status = CurrentStatus.pending ∧
     (reconcileStep env s).status =
       ⟨CurrentStatus.active, "", none, 0⟩) ∨
    (s.status.status = CurrentStatus.draining ∧
     (reconcileStep env s).status =
       ⟨CurrentStatus.offline, "", none, 0⟩) ∨
    ((reconcileStep env s).status.status = s.status.status ∧
     (reconcileStep env s).status.failureCount = s.status.failureCount + 1 ∧
     ((s.status.failingSince = none ∧
       (reconcileStep env s).status.failingSince = some env.now) ∨
      (∃ t, s.status.failingSince = some t ∧
        (reconcileStep env s).status.failingSince = some t))) := by
  unfold reconcileStep Reconcile
  simp only [defaultPower_status, getServerAddress_defaultPower]
  split
  · left; simp [applyWrites]
  split
  · left; simp [writeOut, applyWrites, withPhase, defaultPower_status]
  split
  · left; simp [writeOut, applyWrites, defaultPower_status]
  split
  case _ heq =>
    -- pending
    split
    · right; left
      exact ⟨heq, by simp [writeOut, applyWrites, clearFailure, defaultPower_status]⟩
    · right; right; right
      refine ⟨by simp [writeOut, applyWrites, recordFailure, defaultPower_status], ?_, ?_⟩
      · simp [writeOut, applyWrites, recordFailure, defaultPower_status]
      · cases hfs : s.status.failingSince with
        | none => left; exact ⟨rfl, by simp [writeOut, applyWrites, recordFailure, defaultPower_status, hfs]⟩
        | some t =>
          right; exact ⟨t, rfl, by simp [writeOut, applyWrites, recordFailure, defaultPower_status, hfs]⟩
  case _ heq =>
    -- draining
    split
    · right; right; right
      refine ⟨by simp [writeOut, applyWrites, recordFailure, defaultPower_status], ?_, ?_⟩
      · simp [writeOut, applyWrites, recordFailure, defaultPower_status]
      · cases hfs : s.status.failingSince with
        | none => left; exact ⟨rfl, by simp [writeOut, applyWrites, recordFailure, defaultPower_status, hfs]⟩
        | some t =>
          right; exact ⟨t, rfl, by simp [writeOut, applyWrites, recordFailure, defaultPower_status, hfs]⟩
    · right; right; left
      exact ⟨heq, by simp [writeOut, applyWrites, clearFailure, defaultPower_status]⟩
  case _ =>
    -- active
    split
    · left
      exact powerStage_fcfs env s _ [] (by simp [defaultPower_status])
        (by simp [defaultPower_status]) (by simp [applyWrites]) (by simp [applyWrites])
    · left
      refine powerStage_fcfs env s _ _ ?_ ?_ ?_ ?_ <;>
        simp [withPhase, defaultPower_status, applyWrites]
  case _ =>
    -- offline
    left
    refine powerStage_fcfs env s _ _ ?_ ?_ ?_ ?_ <;>
      simp [withPhase, defaultPower_status, applyWrites]
  case _ =>
    -- unset
    left
    refine powerStage_fcfs env s _ _ ?_ ?_ ?_ ?_ <;>
      simp [withPhase, defaultPower_status, applyWrites]
  case _ =>
    -- dead failed branch of the switch
    left
    exact powerStage_fcfs env s _ [] (by simp [defaultPower_status])
      (by simp [defaultPower_status]) (by simp [applyWrites]) (by simp [applyWrites])

/-! ## Claim theorems -/

/-- C9: `failureCount`/`failingSince` are reset exactly by a successful
pending→active or draining→offline transition (parts 1-3), and an existing
`failingSince` stamp is never overwritten with a different one — it either
persists through the streak or is cleared by such a transition (part 4). -/
theorem failure_streak_reset_exactly_on_transitions :
    (∀ env s, s.status.status = CurrentStatus.pending →
       s.status.failureCount < 3 → getServerAddress s ≠ "" →
       env.isReachable (getServerAddress s) = true →
       reconcileStep env s = clearFailure s CurrentStatus.active) ∧
    (∀ env s, s.status.status = CurrentStatus.draining →
       s.status.failureCount < 3 → getServerAddress s ≠ "" →
       env.isReachable (getServerAddress s) = false →
       reconcileStep env s = clearFailure s CurrentStatus.offline) ∧
    (∀ env s,
       (((reconcileStep env s).status.failureCount = 0 ∧
         s.status.failureCount ≠ 0) ∨
        ((reconcileStep env s).status.failingSince = none ∧
         s.status.failingSince ≠ none)) →
       (s.status.status = CurrentStatus.pending ∧
        (reconcileStep env s).status.status = CurrentStatus.active) ∨
       (s.status.status = CurrentStatus.draining ∧
        (reconcileStep env s).status.status = CurrentStatus.offline)) ∧
    (∀ env s t, s.status.failingSince = some t →
       (reconcileStep env s).status.failingSince = some t ∨
       (reconcileStep env s).status.failingSince = none) := by
  refine ⟨step_pending_reachable, step_draining_unreachable, ?_, ?_⟩
  · intro env s h
    rcases step_fcfs_cases env s with hc | hc | hc | hc
    · rcases h with ⟨h0, hne⟩ | ⟨h0, hne⟩
      · exact absurd (hc.1.symm.trans h0) hne
      · exact absurd (hc.2.symm.trans h0) hne
    · left; exact ⟨hc.1, by rw [hc.2]⟩
    · right; exact ⟨hc.1, by rw [hc.2]⟩
    · exfalso
      rcases h with ⟨h0, _⟩ | ⟨h0, _⟩
      · omega
      · rcases hc.2.2 with ⟨_, hfs⟩ | ⟨u, _, hfs⟩ <;> rw [h0] at hfs <;> cases hfs
  · intro env s t ht
    rcases step_fcfs_cases env s with hc | hc | hc | hc
    · left; rw [hc.2, ht]
    · right; rw [hc.2]
    · right; rw [hc.2]
    · rcases hc.2.2 with ⟨h0, _⟩ | ⟨u, hu, hu2⟩
      · rw [ht] at h0; cases h0
      · rw [ht] at hu
        left
        rw [hu2]
        injection hu with hu
        rw [hu]

/-- C9 witness: a pending record with a live probe transitions to active with
the streak cleared. -/
theorem failure_streak_reset_witness :
    pendingServer.status.status = CurrentStatus.pending ∧
    pendingServer.status.failureCount < 3 ∧
    getServerAddress pendingServer ≠ "" ∧
    probeUpEnv.isReachable (getServerAddress pendingServer) = true ∧
    reconcileStep probeUpEnv pendingServer =
      clearFailure pendingServer CurrentStatus.active :=
  ⟨rfl, by decide, by decide, rfl,
   failure_streak_reset_exactly_on_transitions.1 probeUpEnv pendingServer rfl
     (by decide) (by decide) rfl⟩

/-- C1 counterexample: with the configured threshold (3), after exactly 3
consecutive unreachable reconciles of a fresh pending record the phase is
still pending — `failureCount` has reached the threshold but `failed` is only
set on the next invocation. -/
theorem threshold_after_three_still_pending_cex :
    (reconcileIter probeDownEnv 3 pendingServer).status.status =
      CurrentStatus.pending ∧
    (reconcileIter probeDownEnv 3 pendingServer).status.status ≠
      CurrentStatus.failed ∧
    (reconcileIter probeDownEnv 3 pendingServer).status.failureCount = 3 := by
  refine ⟨?_, ?_, ?_⟩ <;> decide

/-- C1 amended: from a fresh pending record, 3 consecutive unreachable
reconciles raise `failureCount` to the threshold with the phase still
pending; the 4th invocation (which does not probe) sets `failed`, and from
then on the record is frozen — `failureCount` stays at 3 and no further
invocation changes the stored record. -/
theorem threshold_escalation_freeze (env : Env) (s : Server)
    (h1 : s.status.status = CurrentStatus.pending)
    (h2 : s.status.failureCount = 0)
    (h3 : s.status.failingSince = none)
    (h4 : getServerAddress s ≠ "")
    (h5 : env.isReachable (getServerAddress s) = false) :
    (reconcileIter env 3 s).status.status = CurrentStatus.pending ∧
    (reconcileIter env 3 s).status.failureCount = 3 ∧
    (reconcileIter env 4 s).status.status = CurrentStatus.failed ∧
    (reconcileIter env 4 s).status.failureCount = 3 ∧
    (∀ k, reconcileIter env (4 + k) s = reconcileIter env 4 s) := by
  have hst1 : (recordFailure env s).status.status = CurrentStatus.pending := by
    simp [recordFailure, h1]
  have hfc1 : (recordFailure env s).status.failureCount = 1 := by
    simp [recordFailure, h2]
  have hst2 :
      (recordFailure env (recordFailure env s)).status.status =
        CurrentStatus.pending := by
    simp [recordFailure, h1]
  have hfc2 :
      (recordFailure env (recordFailure env s)).status.failureCount = 2 := by
    simp [recordFailure, h2]
  have hst3 :
      (recordFailure env (recordFailure env (recordFailure env s))).status.status =
        CurrentStatus.pending := by
    simp [recordFailure, h1]
  have hfc3 :
      (recordFailure env (recordFailure env (recordFailure env s))).status.failureCount =
        3 := by
    simp [recordFailure, h2]
  have i1 : reconcileIter env 1 s = recordFailure env s :=
    step_pending_unreachable env s h1 (by omega) h4 h5
  have i2 :
      reconcileIter env 2 s = recordFailure env (recordFailure env s) := by
    show reconcileStep env (reconcileIter env 1 s) = _
    rw [i1]
    exact step_pending_unreachable env _ hst1 (by omega) h4 h5
  have i3 :
      reconcileIter env 3 s =
        recordFailure env (recordFailure env (recordFailure env s)) := by
    show reconcileStep env (reconcileIter env 2 s) = _
    rw [i2]
    exact step_pending_unreachable env _ hst2 (by omega) h4 h5
  have i4 :
      reconcileIter env 4 s =
        withPhase (recordFailure env (recordFailure env (recordFailure env s)))
          CurrentStatus.failed := by
    show reconcileStep env (reconcileIter env 3 s) = _
    rw [i3]
    exact step_threshold env _ (by rw [hst3]; decide) (by omega)
  have hst4 :
      (reconcileIter env 4 s).status.status = CurrentStatus.failed := by
    rw [i4]; rfl
  refine ⟨by rw [i3]; exact hst3, by rw [i3]; exact hfc3, hst4,
    by rw [i4]; simpa [withPhase] using hfc3, ?_⟩
  intro k
  induction k with
  | zero => rfl
  | succ k ih =>
    show reconcileStep env (reconcileIter env (4 + k) s) = _
    rw [ih]
    exact step_failed env _ hst4

/-- C1 witness: the amended escalation schedule on the fixture record. -/
theorem threshold_escalation_freeze_witness :
    pendingServer.status.status = CurrentStatus.pending ∧
    pendingServer.status.failureCount = 0 ∧
    pendingServer.status.failingSince = none ∧
    getServerAddress pendingServer ≠ "" ∧
    probeDownEnv.isReachable (getServerAddress pendingServer) = false ∧
    ((reconcileIter probeDownEnv 3 pendingServer).status.status =
       CurrentStatus.pending ∧
     (reconcileIter probeDownEnv 3 pendingServer).status.failureCount = 3 ∧
     (reconcileIter probeDownEnv 4 pendingServer).status.status =
       CurrentStatus.failed ∧
     (reconcileIter probeDownEnv 4 pendingServer).status.failureCount = 3 ∧
     (∀ k, reconcileIter probeDownEnv (4 + k) pendingServer =
        reconcileIter probeDownEnv 4 pendingServer)) :=
  ⟨rfl, rfl, rfl, by decide, rfl,
   threshold_escalation_freeze probeDownEnv pendingServer rfl rfl rfl
     (by decide) rfl⟩

/-- C2: a record whose phase is failed makes `Reconcile` a no-op — no store
write, no power-capability call, success with no requeue, and the stored
record is unchanged until an external actor resets it. -/
theorem failed_phase_reconcile_noop (env : Env) (s : Server)
    (h : s.status.status = CurrentStatus.failed) :
    (Reconcile env s).writes = [] ∧ (Reconcile env s).powerCalls = [] ∧
    (Reconcile env s).error = none ∧ (Reconcile env s).requeueAfter = none ∧
    reconcileStep env s = s := by
  refine ⟨?_, ?_, ?_, ?_, step_failed env s h⟩ <;>
    · unfold Reconcile
      simp [defaultPower_status, h]

/-- C2 witness: the failed fixture record is untouched by a reconcile. -/
theorem failed_phase_reconcile_noop_witness :
    failedServer.status.status = CurrentStatus.failed ∧
    ((Reconcile probeDownEnv failedServer).writes = [] ∧
     (Reconcile probeDownEnv failedServer).powerCalls = [] ∧
     (Reconcile probeDownEnv failedServer).error = none ∧
     (Reconcile probeDownEnv failedServer).requeueAfter = none ∧
     reconcileStep probeDownEnv failedServer = failedServer) :=
  ⟨rfl, failed_phase_reconcile_noop probeDownEnv failedServer rfl⟩

theorem powerStage_writes_status (env : Env) (sx : Server) (w : List StoreWrite)
    (hw : w.all isStatusWrite = true) :
    ((powerStage env sx w).writes.all isStatusWrite) = true := by
  unfold powerStage finishPower
  repeat' split
  all_goals simp_all [List.all_append, isStatusWrite]

theorem reconcile_writes_status (env : Env) (s : Server) :
    ((Reconcile env s).writes.all isStatusWrite) = true := by
  unfold Reconcile
  simp only [defaultPower_status, getServerAddress_defaultPower]
  repeat' split
  all_goals first
    | rfl
    | (apply powerStage_writes_status; simp [isStatusWrite])

theorem applyWrites_spec_of_status (s : Server) (ws : List StoreWrite)
    (h : ws.all isStatusWrite = true) : (applyWrites s ws).spec = s.spec := by
  induction ws generalizing s with
  | nil => rfl
  | cons w rest ih =>
    cases w with
    | statusUpdate st =>
      rw [applyWrites_status_cons]
      exact ih _ (by simpa [isStatusWrite] using h)
    | specUpdate sp => simp [isStatusWrite] at h

theorem stripPower_setIf (s : Server) (n : String) (ps : PowerState) :
    stripPower
      (if s.name = n then { s with spec := { s.spec with powerState := ps } }
       else s) = stripPower s := by
  split <;> simp [stripPower]

theorem setPowerState_stripPower (store : List Server) (n : String)
    (ps : PowerState) :
    (setPowerState store n ps).map stripPower = store.map stripPower := by
  induction store with
  | nil => rfl
  | cons s rest ih =>
    simp only [setPowerState, List.map_cons] at ih ⊢
    rw [stripPower_setIf]
    exact congrArg _ ih

theorem flipFirst_stripPower (src dst : PowerState) (n : Nat)
    (store : List Server) :
    (flipFirst src dst n store).1.map stripPower = store.map stripPower := by
  induction store generalizing n with
  | nil => rfl
  | cons s rest ih =>
    unfold flipFirst
    split
    · rfl
    split
    · simp only [List.map_cons, ih]
      have : stripPower { s with spec := { s.spec with powerState := dst } } =
          stripPower s := by simp [stripPower]
      rw [this]
    · simp only [List.map_cons, ih]

theorem deleteLoop_stripPower (names : List String) (store : List Server) :
    (deleteLoop store names).1.map stripPower = store.map stripPower := by
  induction names generalizing store with
  | nil => rfl
  | cons n rest ih =>
    unfold deleteLoop
    split
    · rfl
    · rw [ih, setPowerState_stripPower]

/-- C3: the engine's `Reconcile` persists only status-subresource writes — the
stored spec survives any invocation untouched — while every adapter operation
returns a store that agrees with the input store under `stripPower`
(same names, statuses, control types and control data; only
`spec.powerState` may differ), so the adapter never writes a status field. -/
theorem write_frame_engine_adapter :
    (∀ env s, ((Reconcile env s).writes.all isStatusWrite) = true) ∧
    (∀ env s, (reconcileStep env s).spec = s.spec) ∧
    (∀ id delta store,
       (NodeGroupIncreaseSize id delta store).1.map stripPower =
         store.map stripPower) ∧
    (∀ id delta store,
       (NodeGroupDecreaseTargetSize id delta store).1.map stripPower =
         store.map stripPower) ∧
    (∀ id names store,
       (NodeGroupDeleteNodes id names store).1.map stripPower =
         store.map stripPower) := by
  refine ⟨reconcile_writes_status, ?_, ?_, ?_, ?_⟩
  · intro env s
    exact applyWrites_spec_of_status s _ (reconcile_writes_status env s)
  · intro id delta store
    unfold NodeGroupIncreaseSize
    dsimp only
    repeat' split
    all_goals first | rfl | apply flipFirst_stripPower
  · intro id delta store
    unfold NodeGroupDecreaseTargetSize
    repeat' split
    all_goals first | rfl | apply flipFirst_stripPower
  · intro id names store
    unfold NodeGroupDeleteNodes
    split
    · rfl
    · exact deleteLoop_stripPower names store

/-- C4 counterexample: a converged offline record (stable offline phase,
desired off, probe unreachable) still causes a store write — `Reconcile`
re-persists the unchanged status — so reconciling a converged record does not
always avoid store writes. -/
theorem converged_offline_still_writes_cex :
    (Reconcile probeDownEnv convOffServer).writes =
      [StoreWrite.statusUpdate convOffServer.status] ∧
    (Reconcile probeDownEnv convOffServer).writes ≠ [] ∧
    (Reconcile probeDownEnv convOffServer).powerCalls = [] := by
  refine ⟨?_, ?_, ?_⟩ <;> decide

/-- C4 amended: a converged active record (phase active, desired on, probe
reachable, failure count below threshold, address configured) produces no
store write and no power call; a converged offline record (phase offline,
desired off, probe unreachable) produces no power call but exactly one status
write that re-persists the unchanged status. -/
theorem converged_stable_phase_effects :
    (∀ env s, s.status.status = CurrentStatus.active →
       s.spec.powerState = PowerState.on →
       s.status.failureCount < 3 →
       getServerAddress s ≠ "" →
       env.isReachable (getServerAddress s) = true →
       (Reconcile env s).writes = [] ∧ (Reconcile env s).powerCalls = []) ∧
    (∀ env s, s.status.status = CurrentStatus.offline →
       s.spec.powerState = PowerState.off →
       s.status.failureCount < 3 →
       getServerAddress s ≠ "" →
       env.isReachable (getServerAddress s) = false →
       (Reconcile env s).powerCalls = [] ∧
       (Reconcile env s).writes = [StoreWrite.statusUpdate s.status]) := by
  constructor
  · intro env s h1 h2 h3 h4 h5
    have h3' : ¬ 3 ≤ s.status.failureCount := by omega
    have hd : defaultPower s = s := defaultPower_eq_of_ne s (by rw [h2]; decide)
    unfold Reconcile
    rw [hd]
    simp [h1, h3', h4, h5, powerStage, h2]
  · intro env s h1 h2 h3 h4 h5
    have h3' : ¬ 3 ≤ s.status.failureCount := by omega
    have hd : defaultPower s = s := defaultPower_eq_of_ne s (by rw [h2]; decide)
    have hw : withPhase s CurrentStatus.offline = s := by
      unfold withPhase
      cases s with
      | mk n sp st =>
        cases st with
        | mk a b c d =>
          simp only at h1
          simp [h1]
    unfold Reconcile
    rw [hd]
    simp [h1, h3', h4, h5, hw, powerStage, h2]

/-- C4 witness: the two converged fixtures behave as the amended claim
states. -/
theorem converged_stable_phase_effects_witness :
    (convActiveServer.status.status = CurrentStatus.active ∧
     convActiveServer.spec.powerState = PowerState.on ∧
     convActiveServer.status.failureCount < 3 ∧
     getServerAddress convActiveServer ≠ "" ∧
     probeUpEnv.isReachable (getServerAddress convActiveServer) = true ∧
     (Reconcile probeUpEnv convActiveServer).writes = [] ∧
     (Reconcile probeUpEnv convActiveServer).powerCalls = []) ∧
    (convOffServer.status.status = CurrentStatus.offline ∧
     convOffServer.spec.powerState = PowerState.off ∧
     (Reconcile probeDownEnv convOffServer).powerCalls = [] ∧
     (Reconcile probeDownEnv convOffServer).writes =
       [StoreWrite.statusUpdate convOffServer.status]) :=
  ⟨⟨rfl, rfl, by decide, by decide, rfl,
    converged_stable_phase_effects.1 probeUpEnv convActiveServer rfl rfl
      (by decide) (by decide) rfl⟩,
   ⟨rfl, rfl,
    (converged_stable_phase_effects.2 probeDownEnv convOffServer rfl rfl
      (by decide) (by decide) rfl).1,
    (converged_stable_phase_effects.2 probeDownEnv convOffServer rfl rfl
      (by decide) (by decide) rfl).2⟩⟩

/-- C8 counterexample: a configuration error (no resolvable address) sets the
phase to failed on the very first occurrence, while the failure streak is
still zero — escalation does not wait for the threshold to be exhausted. -/
theorem config_error_fails_first_occurrence_cex :
    noAddrServer.status.failureCount = 0 ∧
    (Reconcile probeDownEnv noAddrServer).server.status.status =
      CurrentStatus.failed ∧
    (Reconcile probeDownEnv noAddrServer).writes =
      [StoreWrite.statusUpdate
        ⟨CurrentStatus.failed, "No address configured for server", none, 0⟩] ∧
    (reconcileStep probeDownEnv noAddrServer).status.status =
      CurrentStatus.failed := by
  refine ⟨rfl, ?_, ?_, ?_⟩ <;> decide

/-- C8 amended: configuration errors record their detail in `status.message`
and set the phase to failed immediately, on the first occurrence, regardless
of the failure threshold: an unresolvable address persists a failed status and
returns an error without any power call or requeue, and a missing WOL MAC on a
power-on attempt persists a failed status with the validation message, again
with no capability call. -/
theorem config_error_immediate_failed :
    (∀ env s, s.status.status ≠ CurrentStatus.failed →
       s.status.failureCount < 3 →
       getServerAddress s = "" →
       (Reconcile env s).server.status.status = CurrentStatus.failed ∧
       (Reconcile env s).server.status.message =
         "No address configured for server" ∧
       (Reconcile env s).writes =
         [StoreWrite.statusUpdate (Reconcile env s).server.status] ∧
       (Reconcile env s).error ≠ none ∧
       (Reconcile env s).requeueAfter = none ∧
       (Reconcile env s).powerCalls = []) ∧
    (∀ env s w, s.status.status = CurrentStatus.offline →
       s.spec.powerState = PowerState.on →
       s.status.failureCount < 3 →
       s.spec.type = ControlType.wol →
       s.spec.control.wol = some w →
       w.address ≠ "" →
       w.macAddress = "" →
       env.isReachable w.address = false →
       (Reconcile env s).server.status.status = CurrentStatus.failed ∧
       (Reconcile env s).server.status.message =
         "Power action failed: WOL MAC address is required" ∧
       (Reconcile env s).powerCalls = [] ∧
       (Reconcile env s).error = some "WOL MAC address is required") := by
  constructor
  · intro env s h1 h2 h3
    have h2' : ¬ 3 ≤ s.status.failureCount := by omega
    unfold Reconcile
    simp [defaultPower_status, getServerAddress_defaultPower, h1, h2', h3,
          writeOut]
  · intro env s w h1 h2 h3 h4 h5 h6 h7 h8
    have h3' : ¬ 3 ≤ s.status.failureCount := by omega
    have haddr : getServerAddress s = w.address := by
      unfold getServerAddress; rw [h4, h5]
    have hd : defaultPower s = s := defaultPower_eq_of_ne s (by rw [h2]; decide)
    unfold Reconcile
    rw [hd]
    simp [h1, h3', haddr, h6, h8, powerStage, finishPower, powerOn,
          h4, h5, h7, h2, withPhase]

/-- C8 witness: the two configuration-error fixtures. -/
theorem config_error_immediate_failed_witness :
    (noAddrServer.status.status ≠ CurrentStatus.failed ∧
     noAddrServer.status.failureCount < 3 ∧
     getServerAddress noAddrServer = "" ∧
     (Reconcile probeDownEnv noAddrServer).server.status.status =
       CurrentStatus.failed ∧
     (Reconcile probeDownEnv noAddrServer).server.status.message =
       "No address configured for server" ∧
     (Reconcile probeDownEnv noAddrServer).powerCalls = []) ∧
    ((Reconcile probeDownEnv noMacServer).server.status.status =
       CurrentStatus.failed ∧
     (Reconcile probeDownEnv noMacServer).server.status.message =
       "Power action failed: WOL MAC address is required" ∧
     (Reconcile probeDownEnv noMacServer).powerCalls = [] ∧
     (Reconcile probeDownEnv noMacServer).error =
       some "WOL MAC address is required") :=
  ⟨⟨by decide, by decide, rfl,
    (config_error_immediate_failed.1 probeDownEnv noAddrServer (by decide)
      (by decide) rfl).1,
    (config_error_immediate_failed.1 probeDownEnv noAddrServer (by decide)
      (by decide) rfl).2.1,
    (config_error_immediate_failed.1 probeDownEnv noAddrServer (by decide)
      (by decide) rfl).2.2.2.2.2⟩,
   config_error_immediate_failed.2 probeDownEnv noMacServer _ rfl rfl
     (by decide) rfl rfl (by decide) rfl rfl⟩

theorem flipFirst_all_flipped (src dst : PowerState) (n : Nat)
    (store : List Server) (h : countPS src store < n) :
    flipFirst src dst n store = (store.map (flipTo src dst), countPS src store) := by
  induction store generalizing n with
  | nil => simp [flipFirst, countPS]
  | cons s rest ih =>
    have hn : ¬ n = 0 := by
      intro h0; rw [h0] at h; exact Nat.not_lt_zero _ h
    by_cases hs : s.spec.powerState = src
    · have h' : countPS src rest < n - 1 := by
        simp only [countPS, hs, if_pos] at h; omega
      simp [flipFirst, hn, hs, ih (n - 1) h', flipTo, countPS, Nat.add_comm]
    · have h' : countPS src rest < n := by
        simp only [countPS, hs, if_neg, not_false_iff] at h; omega
      simp [flipFirst, hn, hs, ih n h', flipTo, countPS]

/-- C5: an increase on the known pool whose delta exceeds the number of off
records errors out after flipping every off record to on — the already
flipped records are not rolled back, and records that were not off are
untouched (`flipTo` changes exactly the off records). -/
theorem increase_size_shortfall (delta : Int) (store : List Server)
    (h1 : 0 < delta)
    (h2 : (countPS PowerState.off store : Int) < delta) :
    NodeGroupIncreaseSize defaultNodeGroupID delta store =
      (store.map (flipTo PowerState.off PowerState.on),
       Except.error "could not provision enough servers") := by
  have h3 : countPS PowerState.off store < delta.toNat := by omega
  unfold NodeGroupIncreaseSize
  simp [not_le.mpr h1, flipFirst_all_flipped PowerState.off PowerState.on
    delta.toNat store h3, h3]

/-- C5 witness: delta 5 against the sample store with two off records. -/
theorem increase_size_shortfall_witness :
    (0 : Int) < 5 ∧
    (countPS PowerState.off sampleStore : Int) < 5 ∧
    NodeGroupIncreaseSize defaultNodeGroupID 5 sampleStore =
      (sampleStore.map (flipTo PowerState.off PowerState.on),
       Except.error "could not provision enough servers") :=
  ⟨by decide, by decide,
   increase_size_shortfall 5 sampleStore (by decide) (by decide)⟩

theorem forall2_flipFrame_refl (src dst : PowerState) (store : List Server) :
    List.Forall₂ (flipFrame src dst) store store := by
  induction store with
  | nil => exact List.Forall₂.nil
  | cons s rest ih => exact List.Forall₂.cons (Or.inl rfl) ih

theorem flipFirst_count_forall2 (src dst : PowerState) (hsd : src ≠ dst)
    (n : Nat) (store : List Server) :
    (flipFirst src dst n store).2 = min n (countPS src store) ∧
    countPS src (flipFirst src dst n store).1 =
      countPS src store - (flipFirst src dst n store).2 ∧
    List.Forall₂ (flipFrame src dst) store (flipFirst src dst n store).1 := by
  induction store generalizing n with
  | nil => simp [flipFirst, countPS, List.Forall₂.nil]
  | cons s rest ih =>
    by_cases hn : n = 0
    · subst hn
      refine ⟨by simp [flipFirst], by simp [flipFirst], ?_⟩
      simpa [flipFirst] using forall2_flipFrame_refl src dst (s :: rest)
    by_cases hs : s.spec.powerState = src
    · have hstep : flipFirst src dst n (s :: rest) =
          ({ s with spec := { s.spec with powerState := dst } } ::
             (flipFirst src dst (n - 1) rest).1,
           (flipFirst src dst (n - 1) rest).2 + 1) := by
        simp [flipFirst, hn, hs]
      obtain ⟨ih1, ih2, ih3⟩ := ih (n - 1)
      have hc : countPS src (s :: rest) = countPS src rest + 1 := by
        simp [countPS, hs, Nat.add_comm]
      have hd2 : ¬ (dst = src) := fun hh => hsd (Eq.symm hh)
      refine ⟨?_, ?_, ?_⟩
      · rw [hstep]
        dsimp only
        rw [ih1, hc]
        omega
      · rw [hstep]
        dsimp only
        simp only [countPS, hd2, if_false, ite_false]
        rw [ih2, ih1, if_pos hs]
        omega
      · rw [hstep]
        exact List.Forall₂.cons (Or.inr ⟨hs, rfl⟩) ih3
    · have hstep : flipFirst src dst n (s :: rest) =
          (s :: (flipFirst src dst n rest).1,
           (flipFirst src dst n rest).2) := by
        simp [flipFirst, hn, hs]
      obtain ⟨ih1, ih2, ih3⟩ := ih n
      have hc : countPS src (s :: rest) = countPS src rest := by
        simp [countPS, hs]
      refine ⟨?_, ?_, ?_⟩
      · rw [hstep]
        dsimp only
        rw [ih1, hc]
      · rw [hstep]
        dsimp only
        simp only [countPS, hs, if_false, ite_false]
        rw [ih2]
        omega
      · rw [hstep]
        exact List.Forall₂.cons (Or.inl rfl) ih3

/-- C6: a decrease on the known pool with positive delta always succeeds,
even when fewer than delta records are on; it removes exactly
min(delta, number of on records) from the on count, and every record is
either unchanged or was on and is flipped off. -/
theorem decrease_target_size_effects (delta : Int) (store : List Server)
    (h1 : 0 < delta) :
    (NodeGroupDecreaseTargetSize defaultNodeGroupID delta store).2 =
      Except.ok () ∧
    countPS PowerState.on
        (NodeGroupDecreaseTargetSize defaultNodeGroupID delta store).1 =
      countPS PowerState.on store -
        min delta.toNat (countPS PowerState.on store) ∧
    List.Forall₂ (flipFrame PowerState.on PowerState.off) store
      (NodeGroupDecreaseTargetSize defaultNodeGroupID delta store).1 := by
  obtain ⟨e1, e2, e3⟩ :=
    flipFirst_count_forall2 PowerState.on PowerState.off (by decide)
      delta.toNat store
  unfold NodeGroupDecreaseTargetSize
  have hno : ¬ (defaultNodeGroupID ≠ defaultNodeGroupID) := by simp
  rw [if_neg hno, if_neg (not_le.mpr h1)]
  exact ⟨rfl, by rw [e2, e1], e3⟩

/-- C6 witness: delta 5 against the sample store with one on record. -/
theorem decrease_target_size_effects_witness :
    (0 : Int) < 5 ∧
    ((NodeGroupDecreaseTargetSize defaultNodeGroupID 5 sampleStore).2 =
       Except.ok () ∧
     countPS PowerState.on
         (NodeGroupDecreaseTargetSize defaultNodeGroupID 5 sampleStore).1 =
       countPS PowerState.on sampleStore -
         min (Int.toNat 5) (countPS PowerState.on sampleStore) ∧
     List.Forall₂ (flipFrame PowerState.on PowerState.off) sampleStore
       (NodeGroupDecreaseTargetSize defaultNodeGroupID 5 sampleStore).1) :=
  ⟨by decide, decrease_target_size_effects 5 sampleStore (by decide)⟩

theorem findByName_setPowerState_isSome (store : List Server) (m n : String)
    (ps : PowerState) :
    (findByName (setPowerState store m ps) n).isSome =
      (findByName store n).isSome := by
  induction store with
  | nil => rfl
  | cons s rest ih =>
    have hname :
        (if s.name = m then { s with spec := { s.spec with powerState := ps } }
         else s).name = s.name := by
      split <;> rfl
    by_cases hn : s.name = n
    · have hcond :
          (if s.name = m then { s with spec := { s.spec with powerState := ps } }
           else s).name = n := by rw [hname]; exact hn
      have hL :
          findByName (setPowerState (s :: rest) m ps) n =
            some (if s.name = m then
              { s with spec := { s.spec with powerState := ps } } else s) := by
        simp only [setPowerState, List.map_cons, findByName]
        rw [if_pos hcond]
      have hR : findByName (s :: rest) n = some s := by
        simp only [findByName]
        rw [if_pos hn]
      rw [hL, hR]
      rfl
    · have hcond :
          ¬ (if s.name = m then { s with spec := { s.spec with powerState := ps } }
             else s).name = n := by rw [hname]; exact hn
      have hL :
          findByName (setPowerState (s :: rest) m ps) n =
            findByName (setPowerState rest m ps) n := by
        simp only [setPowerState, List.map_cons, findByName]
        rw [if_neg hcond]
      have hR : findByName (s :: rest) n = findByName rest n := by
        simp only [findByName]
        rw [if_neg hn]
      rw [hL, hR]
      exact ih

theorem presentFront_setPowerState (store : List Server) (m : String)
    (ps : PowerState) (names : List String) :
    presentFront (setPowerState store m ps) names = presentFront store names := by
  induction names with
  | nil => rfl
  | cons n rest ih =>
    cases h1 : findByName store n with
    | none =>
      cases h2 : findByName (setPowerState store m ps) n with
      | none => simp [presentFront, h1, h2]
      | some v =>
        have hi := findByName_setPowerState_isSome store m n ps
        rw [h1, h2] at hi
        simp at hi
    | some u =>
      cases h2 : findByName (setPowerState store m ps) n with
      | none =>
        have hi := findByName_setPowerState_isSome store m n ps
        rw [h1, h2] at hi
        simp at hi
      | some v => simp [presentFront, h1, h2, ih]

theorem allPresent_setPowerState (store : List Server) (m : String)
    (ps : PowerState) (names : List String) :
    allPresent (setPowerState store m ps) names = allPresent store names := by
  induction names with
  | nil => rfl
  | cons n rest ih =>
    simp [allPresent, ih, findByName_setPowerState_isSome]

theorem deleteLoop_front (names : List String) (store : List Server) :
    (deleteLoop store names).1 =
      (presentFront store names).foldl
        (fun st n => setPowerState st n PowerState.off) store := by
  induction names generalizing store with
  | nil => rfl
  | cons n rest ih =>
    cases h : findByName store n with
    | none => simp [deleteLoop, presentFront, h]
    | some v =>
      simp [deleteLoop, presentFront, h, ih, presentFront_setPowerState]

theorem deleteLoop_ok_iff (names : List String) (store : List Server) :
    ((deleteLoop store names).2 = Except.ok ()) ↔
      allPresent store names = true := by
  induction names generalizing store with
  | nil => simp [deleteLoop, allPresent]
  | cons n rest ih =>
    cases h : findByName store n with
    | none => simp [deleteLoop, allPresent, h]
    | some v =>
      simp [deleteLoop, allPresent, h, ih, allPresent_setPowerState]

theorem presentFront_of_allPresent (names : List String) (store : List Server)
    (h : allPresent store names = true) : presentFront store names = names := by
  induction names with
  | nil => rfl
  | cons n rest ih =>
    simp only [allPresent, Bool.and_eq_true] at h
    cases h1 : findByName store n with
    | none => rw [h1] at h; simp at h
    | some v => simp [presentFront, h1, ih h.2]

/-- C7 counterexample: deleting members ["beta", "nope"] where "nope" does
not exist returns an error, yet the store has been mutated — "beta" was
already flipped off before the failure, contradicting "no record state is
mutated by the failing call". -/
theorem delete_missing_member_mutates_cex :
    (NodeGroupDeleteNodes defaultNodeGroupID ["beta", "nope"] sampleStore).2 =
      Except.error "failed to get server nope" ∧
    (NodeGroupDeleteNodes defaultNodeGroupID ["beta", "nope"] sampleStore).1 ≠
      sampleStore := by
  refine ⟨rfl, by decide⟩

/-- C7 amended: `NodeGroupDeleteNodes` on the known pool processes the named
members in order, setting each existing one's power state to off, and stops
with an error at the first missing name — members processed before the
failure stay flipped (no rollback).  It succeeds exactly when every named
member exists, in which case all of them are set off.  An unknown pool id
fails with no mutation. -/
theorem delete_nodes_sequential_effects :
    (∀ names store,
       (NodeGroupDeleteNodes defaultNodeGroupID names store).1 =
         (presentFront store names).foldl
           (fun st n => setPowerState st n PowerState.off) store) ∧
    (∀ names store,
       ((NodeGroupDeleteNodes defaultNodeGroupID names store).2 =
          Except.ok ()) ↔
         allPresent store names = true) ∧
    (∀ names store, allPresent store names = true →
       (NodeGroupDeleteNodes defaultNodeGroupID names store).1 =
         names.foldl (fun st n => setPowerState st n PowerState.off) store) ∧
    (∀ id names store, id ≠ defaultNodeGroupID →
       NodeGroupDeleteNodes id names store =
         (store, Except.error ("unknown node group: " ++ id))) := by
  have hno : ¬ (defaultNodeGroupID ≠ defaultNodeGroupID) := by simp
  refine ⟨?_, ?_, ?_, ?_⟩
  · intro names store
    unfold NodeGroupDeleteNodes
    rw [if_neg hno]
    exact deleteLoop_front names store
  · intro names store
    unfold NodeGroupDeleteNodes
    rw [if_neg hno]
    exact deleteLoop_ok_iff names store
  · intro names store h
    unfold NodeGroupDeleteNodes
    rw [if_neg hno, deleteLoop_front names store,
      presentFront_of_allPresent names store h]
  · intro id names store h
    unfold NodeGroupDeleteNodes
    rw [if_pos h]

/-- C7 witness: a delete of the existing member "beta" succeeds and flips it
off; an unknown pool id fails without mutation. -/
theorem delete_nodes_sequential_effects_witness :
    allPresent sampleStore ["beta"] = true ∧
    (NodeGroupDeleteNodes defaultNodeGroupID ["beta"] sampleStore).1 =
      ["beta"].foldl (fun st n => setPowerState st n PowerState.off)
        sampleStore ∧
    "other-pool" ≠ defaultNodeGroupID ∧
    NodeGroupDeleteNodes "other-pool" ["beta"] sampleStore =
      (sampleStore, Except.error ("unknown node group: " ++ "other-pool")) :=
  ⟨by decide,
   delete_nodes_sequential_effects.2.2.1 ["beta"] sampleStore (by decide),
   by decide,
   delete_nodes_sequential_effects.2.2.2 "other-pool" ["beta"] sampleStore
     (by decide)⟩

/-- C10: a scale call with non-positive delta on the known pool succeeds and
writes nothing — the store is returned unchanged. -/
theorem nonpositive_delta_noop (delta : Int) (store : List Server)
    (h : delta ≤ 0) :
    NodeGroupIncreaseSize defaultNodeGroupID delta store =
      (store, Except.ok ()) ∧
    NodeGroupDecreaseTargetSize defaultNodeGroupID delta store =
      (store, Except.ok ()) := by
  unfold NodeGroupIncreaseSize NodeGroupDecreaseTargetSize
  simp [h]

/-- C10 witness: delta 0 on the sample store. -/
theorem nonpositive_delta_noop_witness :
    (0 : Int) ≤ 0 ∧
    (NodeGroupIncreaseSize defaultNodeGroupID 0 sampleStore =
       (sampleStore, Except.ok ()) ∧
     NodeGroupDecreaseTargetSize defaultNodeGroupID 0 sampleStore =
       (sampleStore, Except.ok ())) :=
  ⟨le_refl 0, nonpositive_delta_noop 0 sampleStore (le_refl 0)⟩

end BareMetal
